/-
  Verification of the DenseNet training example
  (src/07_ModernConvolutionalNeuralNetworks/DensNet.cpp).

  The program arranges library layers (conv2d, batch norm, pooling, linear)
  into a DenseNet and runs a train/validate/test loop.  The numerical layers
  are external black boxes; what the repository itself determines is
  (a) the shape semantics of the composed architecture (which layers are
  applied, in which order, with which channel bookkeeping), and
  (b) the control flow of the class-name loader and the training loop.
  We embed both at that level: tensors are modelled by their shapes,
  each layer by its (fallible) shape-transfer function taken from the
  documented contracts of the library primitives the code calls, and the
  loops by explicit folds over sample/epoch lists.
-/
import Mathlib

namespace DensNet

/-- The shape [N, C, H, W] of a 4-d tensor. -/
structure Shape where
  n : Nat
  c : Nat
  h : Nat
  w : Nat
deriving DecidableEq, Repr

/-- Shape semantics of `torch::nn::BatchNorm2d(features)`: requires the
channel count to match `features`, leaves the shape unchanged. -/
def batchNorm2d_shape (features : Nat) (s : Shape) : Option Shape :=
  if s.c = features then some s else none

/-- Shape semantics of `torch::nn::ReLU()` (and of the in-place
`torch::relu_`): elementwise, shape unchanged. -/
def relu_shape (s : Shape) : Shape := s

/-- Shape semantics of `torch::nn::Conv2d(Options(inCh, outCh, k).stride(st).padding(p))`
with dilation 1: requires `inCh` input channels and a padded extent of at
least `k`; output spatial size is `(x + 2p - k) / st + 1` (floor). -/
def conv2d_shape (inCh outCh k st p : Nat) (s : Shape) : Option Shape :=
  if s.c = inCh ∧ k ≤ s.h + 2 * p ∧ k ≤ s.w + 2 * p then
    some ⟨s.n, outCh, (s.h + 2 * p - k) / st + 1, (s.w + 2 * p - k) / st + 1⟩
  else none

/-- Shape semantics of `torch::max_pool2d(x, k, st, p, 1, false)`
(kernel `k`, stride `st`, padding `p`, dilation 1, floor mode). -/
def max_pool2d_shape (k st p : Nat) (s : Shape) : Option Shape :=
  if k ≤ s.h + 2 * p ∧ k ≤ s.w + 2 * p then
    some ⟨s.n, s.c, (s.h + 2 * p - k) / st + 1, (s.w + 2 * p - k) / st + 1⟩
  else none

/-- Shape semantics of `torch::nn::AvgPool2d(AvgPool2dOptions(k).stride(st))`
(no padding, floor mode). -/
def avg_pool2d_shape (k st : Nat) (s : Shape) : Option Shape :=
  if k ≤ s.h ∧ k ≤ s.w then
    some ⟨s.n, s.c, (s.h - k) / st + 1, (s.w - k) / st + 1⟩
  else none

/-- Shape semantics of `torch::adaptive_avg_pool2d(x, {1, 1})`. -/
def adaptive_avg_pool2d_shape (s : Shape) : Option Shape :=
  if 1 ≤ s.h ∧ 1 ≤ s.w then some ⟨s.n, s.c, 1, 1⟩ else none

/-- Shape semantics of `torch::cat({x, y}, 1)`: concatenation along the
channel axis; all other dimensions must agree. -/
def cat_channel (x y : Shape) : Option Shape :=
  if x.n = y.n ∧ x.h = y.h ∧ x.w = y.w then
    some ⟨x.n, x.c + y.c, x.h, x.w⟩
  else none

/-- One primitive layer pushed onto a `torch::nn::Sequential`. -/
inductive Layer where
  | batchNorm2d (features : Nat)
  | relu
  | conv2d (inCh outCh k st p : Nat)
  | maxPool2d (k st p : Nat)
  | avgPool2d (k st : Nat)
deriving DecidableEq, Repr

/-- Shape action of a single primitive layer. -/
def applyLayer : Layer → Shape → Option Shape
  | .batchNorm2d f, s => batchNorm2d_shape f s
  | .relu, s => some (relu_shape s)
  | .conv2d i o k st p, s => conv2d_shape i o k st p s
  | .maxPool2d k st p, s => max_pool2d_shape k st p s
  | .avgPool2d k st, s => avg_pool2d_shape k st s

/-- `torch::nn::SequentialImpl::forward`: the layers applied in order. -/
def applySeq : List Layer → Shape → Option Shape
  | [], s => some s
  | l :: ls, s => (applyLayer l s).bind (applySeq ls)

/-- The layers pushed by `conv_block(input_channels, num_channels)`:
batch norm, ReLU, 3x3 convolution with padding 1. -/
def conv_block_layers (input_channels num_channels : Nat) : List Layer :=
  [.batchNorm2d input_channels, .relu,
   .conv2d input_channels num_channels 3 1 1]

/-- `conv_block::forward`: run the sequential body, then concatenate the
original input with its output along the channel axis. -/
def conv_block_forward (input_channels num_channels : Nat) (x : Shape) :
    Option Shape :=
  (applySeq (conv_block_layers input_channels num_channels) x).bind
    (fun y => cat_channel x y)

/-- The conv blocks pushed by `DenseBlock(num_convs, input_channels, num_channels)`:
block `i` is `conv_block(num_channels * i + input_channels, num_channels)`. -/
def denseBlockConvs (num_convs input_channels num_channels : Nat) :
    List (Nat × Nat) :=
  (List.range num_convs).map
    (fun i => (num_channels * i + input_channels, num_channels))

/-- Run a list of conv blocks in order (sequential forward). -/
def runConvBlocks : List (Nat × Nat) → Shape → Option Shape
  | [], x => some x
  | p :: ps, x => (conv_block_forward p.1 p.2 x).bind (runConvBlocks ps)

/-- `DenseBlock::forward`: the iterated composition of its conv blocks. -/
def denseBlock_forward (num_convs input_channels num_channels : Nat)
    (x : Shape) : Option Shape :=
  runConvBlocks (denseBlockConvs num_convs input_channels num_channels) x

/-- The layers pushed by `transition_block(input_channels, num_channels)`:
batch norm, ReLU, 1x1 convolution, 2x2 average pooling with stride 2. -/
def transition_block_layers (input_channels num_channels : Nat) : List Layer :=
  [.batchNorm2d input_channels, .relu,
   .conv2d input_channels num_channels 1 1 0,
   .avgPool2d 2 2]

/-- `transition_block::forward`: plain sequential forward, no concatenation. -/
def transition_block_forward (input_channels num_channels : Nat) (x : Shape) :
    Option Shape :=
  applySeq (transition_block_layers input_channels num_channels) x

/-- One element of the `features` sequential of `DensNetImpl`: either a
primitive layer, a `DenseBlock`, or a `transition_block`. -/
inductive Block where
  | plain (l : Layer)
  | dense (num_convs input_channels growth : Nat)
  | trans (input_channels num_channels : Nat)
deriving DecidableEq, Repr

/-- Shape action of one `features` element. -/
def blockForward : Block → Shape → Option Shape
  | .plain l, x => applyLayer l x
  | .dense nc ic g, x => denseBlock_forward nc ic g x
  | .trans ic oc, x => transition_block_forward ic oc x

/-- Sequential forward over the `features` elements. -/
def runBlocks : List Block → Shape → Option Shape
  | [], x => some x
  | b :: bs, x => (blockForward b x).bind (runBlocks bs)

/-- The dense-block/transition-block construction loop of
`DensNetImpl::DensNetImpl`, generalized over the list
`num_convs_in_dense_blocks`, the growth rate, and the running channel
counter.  For each entry: push a `DenseBlock`, add `num_convs * growth`
to the counter, and, if the entry is not the last one, push a
`transition_block` and truncate the counter to `num_channels / 2`
(the code computes `static_cast<int64_t>(num_channels / 2.0)`, which for
nonnegative counts is the floor, i.e. Nat division).  Returns the pushed
blocks and the final channel counter. -/
def buildDenseBlocks (growth : Nat) : List Nat → Nat → List Block × Nat
  | [], num_channels => ([], num_channels)
  | [nc], num_channels =>
      ([.dense nc num_channels growth], num_channels + nc * growth)
  | nc :: nc2 :: rest, num_channels =>
      let grown := num_channels + nc * growth
      let tail := buildDenseBlocks growth (nc2 :: rest) (grown / 2)
      (.dense nc num_channels growth :: .trans grown (grown / 2) :: tail.1,
       tail.2)

/-- Default configuration from the source: `num_channels = 64`,
`growth_rate = 32`, `num_convs_in_dense_blocks = {4, 4, 4, 4}`. -/
def num_convs_in_dense_blocks : List Nat := [4, 4, 4, 4]

def growth_rate : Nat := 32

/-- The stem of `DensNetImpl`: 7x7 conv (stride 2, padding 3) from 3 to 64
channels, batch norm, ReLU, 3x3 max pool (stride 2, padding 1). -/
def densNetStem : List Block :=
  [.plain (.conv2d 3 64 7 2 3), .plain (.batchNorm2d 64), .plain .relu,
   .plain (.maxPool2d 3 2 1)]

/-- The channel counter after the construction loop; this is the width of
the final batch norm and the in-features of the `classifier` linear layer. -/
def densNetFinalChannels : Nat :=
  (buildDenseBlocks growth_rate num_convs_in_dense_blocks 64).2

/-- The full `features` sequential of `DensNetImpl`: stem, the dense/
transition blocks, and the final batch norm. -/
def densNetFeatures : List Block :=
  densNetStem ++ (buildDenseBlocks growth_rate num_convs_in_dense_blocks 64).1
    ++ [.plain (.batchNorm2d densNetFinalChannels)]

/-- Shape semantics of `out.view({features.size(0), -1})`: flatten all but
the batch dimension, giving a 2-d shape (rows, columns). -/
def view_flatten (s : Shape) : Nat × Nat := (s.n, s.c * s.h * s.w)

/-- Shape semantics of `torch::nn::Linear(inF, outF)` on a 2-d input:
requires `inF` columns, produces `outF` columns. -/
def linear_shape (inF outF : Nat) (v : Nat × Nat) : Option (Nat × Nat) :=
  if v.2 = inF then some (v.1, outF) else none

/-- `DensNetImpl::forward`: features forward, in-place ReLU, adaptive
average pooling to 1x1, flatten, classifier linear layer. -/
def densNet_forward (num_classes : Nat) (x : Shape) : Option (Nat × Nat) := do
  let f ← runBlocks densNetFeatures x
  let o := relu_shape f
  let o ← adaptive_avg_pool2d_shape o
  linear_shape densNetFinalChannels num_classes (view_flatten o)

/-- Outcome of a call that may terminate the process instead of returning:
`ok v` is a normal return, `exitFatal code` is `std::exit(code)` after an
error message, `abort` is an uncaught exception
(`std::vector::at` out of range → `std::terminate`). -/
inductive ProcResult (α : Type) where
  | ok (v : α)
  | exitFatal (code : Nat)
  | abort
deriving DecidableEq, Repr

/-- `Set_Class_Names(path, class_num)`.  The file is modelled as
`none` when it cannot be opened (`ifs.fail()`) and `some lines`
otherwise.  The loop keeps each line of length `> 2` and writes it into
`class_names.at(i)` for `i = 0, 1, ...` over a vector preallocated with
`class_num` elements, so the `(class_num + 1)`-st kept line raises
`std::out_of_range` (abort); afterwards, if the number of kept lines
differs from `class_num`, the function prints an error and exits with
code 1; otherwise it returns the vector, which then holds exactly the
kept lines in file order. -/
def Set_Class_Names (file : Option (List String)) (class_num : Nat) :
    ProcResult (List String) :=
  match file with
  | none => .exitFatal 1
  | some lines =>
      let kept := lines.filter (fun l => 2 < l.length)
      if class_num < kept.length then .abort
      else if kept.length = class_num then .ok kept
      else .exitFatal 1

/-! ### The train / validate / test loop -/

/-- The result of an IEEE single-precision division whose operands are
exactly representable (small integral counts and exactly accumulated
sums): `NaN` for `0 / 0`, signed infinity for `x / 0` with `x ≠ 0`, and
the exact rational quotient otherwise. -/
inductive FVal where
  | nan
  | posInf
  | negInf
  | val (q : ℚ)
deriving DecidableEq, Repr

/-- `(float)a / (float)b` for nonnegative integer counters `a`, `b`. -/
def fdivNat (a b : Nat) : FVal :=
  if b = 0 then (if a = 0 then .nan else .posInf) else .val ((a : ℚ) / (b : ℚ))

/-- `a / (float)b` for an accumulated scalar `a` and a nonnegative count `b`. -/
def fdivQ (a : ℚ) (b : Nat) : FVal :=
  if b = 0 then (if a = 0 then .nan else if 0 < a then .posInf else .negInf)
  else .val (a / (b : ℚ))

/-- One iteration of the test loop (batch size 1): the scalar loss
`criterion(out, label).item()`, the top-1 prediction
`response = output.exp().argmax(1)`, and the label `answer = label[0]`. -/
structure TestSample where
  loss : ℚ
  response : Nat
  answer : Nat
deriving DecidableEq, Repr

/-- The accumulators of the test loop (lines 337-366): the running loss
sum (stored in the variable `ave_loss`), the overall match and sample
counters, and the per-class match / sample counters (vectors of length
`class_num`). -/
structure TestStats where
  ave_loss : ℚ
  matched : Nat
  counter : Nat
  class_match : List Nat
  class_counter : List Nat
deriving DecidableEq, Repr

/-- `v[i]++` on a per-class counter vector. -/
def bump (l : List Nat) (i : Nat) : List Nat := l.set i (l.getD i 0 + 1)

/-- The body of the test loop for one sample. -/
def testStep (s : TestStats) (x : TestSample) : TestStats :=
  { ave_loss := s.ave_loss + x.loss
    matched := if x.response = x.answer then s.matched + 1 else s.matched
    counter := s.counter + 1
    class_match :=
      if x.response = x.answer then bump s.class_match x.answer
      else s.class_match
    class_counter := bump s.class_counter x.answer }

/-- The whole test loop, starting from zeroed accumulators and
per-class vectors of length `class_num`. -/
def testPhase (class_num : Nat) (samples : List TestSample) : TestStats :=
  samples.foldl testStep
    ⟨0, 0, 0, List.replicate class_num 0, List.replicate class_num 0⟩

/-- Line 369: `ave_loss = ave_loss / (float)dataset.size();` — the
divisor is the size of `dataset`, the TRAINING dataset, not the test
loop counter `counter` nor `test_dataset.size()`. -/
def test_reported_ave_loss (class_num train_dataset_size : Nat)
    (samples : List TestSample) : FVal :=
  fdivQ (testPhase class_num samples).ave_loss train_dataset_size

/-- Line 374: `class_accuracy[i] = (float)class_match[i] / (float)class_counter[i];`
with no guard against `class_counter[i] == 0`. -/
def test_class_accuracy (class_num : Nat) (samples : List TestSample)
    (c : Nat) : FVal :=
  fdivNat ((testPhase class_num samples).class_match.getD c 0)
    ((testPhase class_num samples).class_counter.getD c 0)

/-- Line 377: `accuracy = (float)match / float(counter);`. -/
def test_overall_accuracy (class_num : Nat) (samples : List TestSample) : FVal :=
  fdivNat (testPhase class_num samples).matched
    (testPhase class_num samples).counter

/-- One validation mini-batch: the (top-1 prediction, label) pair of each
sample in the batch and the scalar batch loss `criterion(out, label)`. -/
structure ValBatch where
  preds : List (Nat × Nat)
  loss : ℚ
deriving DecidableEq, Repr

/-- The accumulators of the validation loop (lines 289-321). -/
structure ValStats where
  iteration : Nat
  total_loss : ℚ
  total_match : Nat
  total_counter : Nat
deriving DecidableEq, Repr

/-- The inner per-sample tally (lines 312-318): for each sample,
increment `total_counter`, and `total_match` when the top-1 response
equals the label. -/
def tallyBatch : List (Nat × Nat) → Nat × Nat → Nat × Nat
  | [], mc => mc
  | p :: ps, mc =>
      tallyBatch ps (if p.1 = p.2 then (mc.1 + 1, mc.2 + 1) else (mc.1, mc.2 + 1))

/-- The body of the validation loop for one mini-batch: forward and loss
in evaluation mode, loss accumulated, per-sample top-1 tally; no
optimizer call appears in this path. -/
def valStep (s : ValStats) (b : ValBatch) : ValStats :=
  let mc := tallyBatch b.preds (s.total_match, s.total_counter)
  { iteration := s.iteration + 1
    total_loss := s.total_loss + b.loss
    total_match := mc.1
    total_counter := mc.2 }

/-- The whole validation loop, from zeroed accumulators. -/
def valPhase (batches : List ValBatch) : ValStats :=
  batches.foldl valStep ⟨0, 0, 0, 0⟩

/-- Line 326: `total_accuracy = (float)total_match / (float)total_counter;`. -/
def validation_accuracy (batches : List ValBatch) : FVal :=
  fdivNat (valPhase batches).total_match (valPhase batches).total_counter

/-- A validation pass recorded by an epoch of the outer loop:
the epoch number and whether `net->eval()` was in effect. -/
structure ValidationRecord where
  epoch : Nat
  evalMode : Bool
deriving DecidableEq, Repr

/-- Optimizer-step count and validation records of the outer loop. -/
structure LoopState where
  optSteps : Nat
  validations : List ValidationRecord
deriving DecidableEq, Repr

/-- One epoch of the outer loop (lines 249-329): `net->train()`, one
`optimizer.step()` per training mini-batch, then — only when
`valid && (epoch % 5 == 0)` — `net->eval()` followed by the validation
loop, which contains no optimizer call. -/
def runEpoch (valid : Bool) (train_batches : Nat) (st : LoopState)
    (epoch : Nat) : LoopState :=
  let st1 : LoopState := { st with optSteps := st.optSteps + train_batches }
  if valid && epoch % 5 == 0 then
    { st1 with validations := st1.validations ++ [⟨epoch, true⟩] }
  else st1

/-- The epoch loop: `for (epoch = start_epoch; epoch <= total_epoch; epoch++)`
with `start_epoch = 1` as in the source. -/
def trainingLoop (valid : Bool) (train_batches total_epoch : Nat) : LoopState :=
  (List.range' 1 total_epoch).foldl (runEpoch valid train_batches) ⟨0, []⟩

/-! ### Weight initialization pass -/

/-- The runtime type a submodule can have under the `dynamic_cast` chain
of lines 112-121: `Conv2dImpl`, `BatchNorm2dImpl`, `LinearImpl`, or
anything else (ReLU, Functional pooling, Sequential containers, ...). -/
inductive ModKind where
  | conv2d
  | batchNorm2d
  | linear
  | other
deriving DecidableEq, Repr

/-- How a parameter tensor was initialized. -/
inductive Init where
  | frameworkDefault
  | kaimingNormal
  | constInit (v : Int)
deriving DecidableEq, Repr

/-- The (weight, bias) initialization state of one submodule. -/
structure ParamInit where
  weight : Init
  bias : Init
deriving DecidableEq, Repr

/-- The `dynamic_cast` chain applied to one submodule: conv → Kaiming
normal on the weight; batch norm → weight 1, bias 0; linear → bias 0;
anything else untouched. -/
def initModule : ModKind → ParamInit → ParamInit
  | .conv2d, p => { p with weight := .kaimingNormal }
  | .batchNorm2d, p => { p with weight := .constInit 1, bias := .constInit 0 }
  | .linear, p => { p with bias := .constInit 0 }
  | .other, p => p

/-- The submodules of each `conv_block`: batch norm, ReLU, 3x3 conv. -/
def conv_block_moduleKinds : List ModKind := [.batchNorm2d, .other, .conv2d]

/-- The submodules of a `DenseBlock`: each `conv_block` container plus
its children. -/
def denseBlock_moduleKinds (num_convs : Nat) : List ModKind :=
  (List.replicate num_convs (ModKind.other :: conv_block_moduleKinds)).flatten

/-- The submodules of a `transition_block`: batch norm, ReLU, 1x1 conv,
average pooling. -/
def transition_block_moduleKinds : List ModKind :=
  [.batchNorm2d, .other, .conv2d, .other]

/-- The submodules contributed by one `features` element (the element
itself when it is a container, then its children). -/
def blockModuleKinds : Block → List ModKind
  | .plain (.batchNorm2d _) => [.batchNorm2d]
  | .plain (.conv2d _ _ _ _ _) => [.conv2d]
  | .plain _ => [.other]
  | .dense nc _ _ => ModKind.other :: denseBlock_moduleKinds nc
  | .trans _ _ => ModKind.other :: transition_block_moduleKinds

/-- `modules(include_self=false)` of the constructed model: the
`features` Sequential container, its elements and their children, and
the `classifier` linear layer. -/
def densNetModuleKinds : List ModKind :=
  ModKind.other :: (densNetFeatures.map blockModuleKinds).flatten
    ++ [ModKind.linear]

/-- The post-construction initialization pass: `initModule` applied once
to every submodule, each starting from the framework default. -/
def densNetInit : List (ModKind × ParamInit) :=
  densNetModuleKinds.map
    (fun k => (k, initModule k ⟨.frameworkDefault, .frameworkDefault⟩))

/-! ### Shape lemmas for the blocks -/

lemma conv_block_shape (ic g n h w : Nat) (hh : 1 ≤ h) (hw : 1 ≤ w) :
    conv_block_forward ic g ⟨n, ic, h, w⟩ = some ⟨n, ic + g, h, w⟩ := by
  have e1 : (3:Nat) ≤ h + 2 * 1 := by omega
  have e2 : (3:Nat) ≤ w + 2 * 1 := by omega
  have eh : h + 2 * 1 - 3 = h - 1 := by omega
  have ew : w + 2 * 1 - 3 = w - 1 := by omega
  have eh2 : h - 1 + 1 = h := by omega
  have ew2 : w - 1 + 1 = w := by omega
  simp only [conv_block_forward, conv_block_layers, applySeq, applyLayer,
    batchNorm2d_shape, relu_shape, conv2d_shape, cat_channel]
  simp [e1, e2, eh, ew, eh2, ew2, hh, hw]

lemma runConvBlocks_append (l₁ l₂ : List (Nat × Nat)) (x : Shape) :
    runConvBlocks (l₁ ++ l₂) x = (runConvBlocks l₁ x).bind (runConvBlocks l₂) := by
  induction l₁ generalizing x with
  | nil => simp [runConvBlocks]
  | cons p ps ih =>
      simp [runConvBlocks, Option.bind_assoc]
      cases conv_block_forward p.1 p.2 x with
      | none => simp
      | some y => simp [ih]

lemma denseBlock_shape (m ic g n h w : Nat) (hh : 1 ≤ h) (hw : 1 ≤ w) :
    denseBlock_forward m ic g ⟨n, ic, h, w⟩ = some ⟨n, ic + m * g, h, w⟩ := by
  induction m with
  | zero => simp [denseBlock_forward, denseBlockConvs, runConvBlocks]
  | succ k ih =>
      have step : denseBlockConvs (k+1) ic g
          = denseBlockConvs k ic g ++ [(g * k + ic, g)] := by
        simp [denseBlockConvs, List.range_succ]
      rw [denseBlock_forward, step, runConvBlocks_append]
      rw [denseBlock_forward] at ih
      rw [ih]
      have hc := conv_block_shape (g * k + ic) g n h w hh hw
      rw [show ic + k * g = g * k + ic from by ring]
      simp [runConvBlocks, hc]
      ring

lemma transition_block_shape (ic oc n h w : Nat) (hh : 2 ≤ h) (hw : 2 ≤ w) :
    transition_block_forward ic oc ⟨n, ic, h, w⟩ = some ⟨n, oc, h / 2, w / 2⟩ := by
  have e1 : (1:Nat) ≤ h := by omega
  have e2 : (1:Nat) ≤ w := by omega
  have eh : h - 1 + 1 = h := by omega
  have ew : w - 1 + 1 = w := by omega
  have dh : (h - 2) / 2 + 1 = h / 2 := by omega
  have dw : (w - 2) / 2 + 1 = w / 2 := by omega
  simp only [transition_block_forward, transition_block_layers, applySeq,
    applyLayer, batchNorm2d_shape, relu_shape, conv2d_shape, avg_pool2d_shape]
  simp [e1, e2, eh, ew, hh, hw, dh, dw]

lemma densNetFeatures_explicit :
    densNetFeatures =
      [.plain (.conv2d 3 64 7 2 3), .plain (.batchNorm2d 64), .plain .relu,
       .plain (.maxPool2d 3 2 1),
       .dense 4 64 32, .trans 192 96,
       .dense 4 96 32, .trans 224 112,
       .dense 4 112 32, .trans 240 120,
       .dense 4 120 32,
       .plain (.batchNorm2d 248)] := by
  rfl

lemma densNetFinalChannels_eq : densNetFinalChannels = 248 := by rfl

lemma densNet_features_shape (N : Nat) :
    runBlocks densNetFeatures ⟨N, 3, 224, 224⟩ = some ⟨N, 248, 7, 7⟩ := by
  have d1 : denseBlock_forward 4 64 32 ⟨N, 64, 56, 56⟩ = some ⟨N, 192, 56, 56⟩ := by
    simpa using denseBlock_shape 4 64 32 N 56 56 (by norm_num) (by norm_num)
  have t1 : transition_block_forward 192 96 ⟨N, 192, 56, 56⟩ = some ⟨N, 96, 28, 28⟩ := by
    simpa using transition_block_shape 192 96 N 56 56 (by norm_num) (by norm_num)
  have d2 : denseBlock_forward 4 96 32 ⟨N, 96, 28, 28⟩ = some ⟨N, 224, 28, 28⟩ := by
    simpa using denseBlock_shape 4 96 32 N 28 28 (by norm_num) (by norm_num)
  have t2 : transition_block_forward 224 112 ⟨N, 224, 28, 28⟩ = some ⟨N, 112, 14, 14⟩ := by
    simpa using transition_block_shape 224 112 N 28 28 (by norm_num) (by norm_num)
  have d3 : denseBlock_forward 4 112 32 ⟨N, 112, 14, 14⟩ = some ⟨N, 240, 14, 14⟩ := by
    simpa using denseBlock_shape 4 112 32 N 14 14 (by norm_num) (by norm_num)
  have t3 : transition_block_forward 240 120 ⟨N, 240, 14, 14⟩ = some ⟨N, 120, 7, 7⟩ := by
    simpa using transition_block_shape 240 120 N 14 14 (by norm_num) (by norm_num)
  have d4 : denseBlock_forward 4 120 32 ⟨N, 120, 7, 7⟩ = some ⟨N, 248, 7, 7⟩ := by
    simpa using denseBlock_shape 4 120 32 N 7 7 (by norm_num) (by norm_num)
  rw [densNetFeatures_explicit]
  simp [runBlocks, blockForward, applyLayer, conv2d_shape, batchNorm2d_shape,
    relu_shape, max_pool2d_shape, d1, t1, d2, t2, d3, t3, d4]

/-! ### Fold invariants of the test loop -/

lemma bump_length (l : List Nat) (i : Nat) : (bump l i).length = l.length := by
  simp [bump]

lemma bump_getD (l : List Nat) (i c : Nat) (hi : i < l.length) :
    (bump l i).getD c 0 = if c = i then l.getD c 0 + 1 else l.getD c 0 := by
  unfold bump
  rcases eq_or_ne c i with rfl | hne
  · simp [List.getD_eq_getElem?_getD, List.getElem?_set_eq_of_lt _ hi]
  · simp [List.getD_eq_getElem?_getD, List.getElem?_set_ne (Ne.symm hne), hne]

lemma testPhase_counter (samples : List TestSample) (s : TestStats) :
    (samples.foldl testStep s).counter = s.counter + samples.length := by
  induction samples generalizing s with
  | nil => simp
  | cons x xs ih => simp [testStep, ih]; omega

lemma testPhase_ave_loss (samples : List TestSample) (s : TestStats) :
    (samples.foldl testStep s).ave_loss
      = s.ave_loss + (samples.map TestSample.loss).sum := by
  induction samples generalizing s with
  | nil => simp
  | cons x xs ih => simp [testStep, ih]; ring

lemma testPhase_matched (samples : List TestSample) (s : TestStats) :
    (samples.foldl testStep s).matched
      = s.matched + samples.countP (fun x => x.response == x.answer) := by
  induction samples generalizing s with
  | nil => simp
  | cons x xs ih =>
      simp only [List.foldl_cons, List.countP_cons, ih]
      by_cases hx : x.response = x.answer <;> simp [testStep, hx]
      omega

lemma testPhase_cc_length (samples : List TestSample) (s : TestStats) :
    (samples.foldl testStep s).class_counter.length = s.class_counter.length := by
  induction samples generalizing s with
  | nil => simp
  | cons x xs ih => simp [testStep, ih, bump_length]

lemma testPhase_cm_length (samples : List TestSample) (s : TestStats) :
    (samples.foldl testStep s).class_match.length = s.class_match.length := by
  induction samples generalizing s with
  | nil => simp
  | cons x xs ih =>
      by_cases hx : x.response = x.answer <;> simp [testStep, hx, ih, bump_length]

lemma testPhase_class_counter (samples : List TestSample) (s : TestStats)
    (c : Nat) (hl : ∀ x ∈ samples, x.answer < s.class_counter.length) :
    (samples.foldl testStep s).class_counter.getD c 0
      = s.class_counter.getD c 0 + samples.countP (fun x => x.answer == c) := by
  induction samples generalizing s with
  | nil => simp
  | cons x xs ih =>
      have hx : x.answer < s.class_counter.length := hl x (by simp)
      have hxs : ∀ y ∈ xs, y.answer < (testStep s x).class_counter.length := by
        intro y hy
        have := hl y (by simp [hy])
        simpa [testStep, bump_length] using this
      simp only [List.foldl_cons, List.countP_cons, ih _ hxs]
      have hcc : (testStep s x).class_counter = bump s.class_counter x.answer := rfl
      rw [hcc, bump_getD _ _ _ hx]
      by_cases hc : c = x.answer
      · simp [hc]; omega
      · have : (x.answer == c) = false := by
          simp [Ne.symm hc]
        simp [hc, this]

lemma testPhase_class_match (samples : List TestSample) (s : TestStats)
    (c : Nat) (hl : ∀ x ∈ samples, x.answer < s.class_match.length) :
    (samples.foldl testStep s).class_match.getD c 0
      = s.class_match.getD c 0
        + samples.countP (fun x => x.response == x.answer && x.answer == c) := by
  induction samples generalizing s with
  | nil => simp
  | cons x xs ih =>
      have hx : x.answer < s.class_match.length := hl x (by simp)
      have hxs : ∀ y ∈ xs, y.answer < (testStep s x).class_match.length := by
        intro y hy
        have := hl y (by simp [hy])
        by_cases hr : x.response = x.answer <;>
          simpa [testStep, hr, bump_length] using this
      simp only [List.foldl_cons, List.countP_cons, ih _ hxs]
      by_cases hr : x.response = x.answer
      · have hcm : (testStep s x).class_match = bump s.class_match x.answer := by
          simp [testStep, hr]
        rw [hcm, bump_getD _ _ _ hx]
        by_cases hc : c = x.answer
        · simp [hc, hr]; omega
        · have hb : (x.answer == c) = false := by simp [Ne.symm hc]
          simp [hc, hr, hb]
      · have : (testStep s x).class_match = s.class_match := by
          simp [testStep, hr]
        rw [this]
        have hb : (x.response == x.answer) = false := by simp [hr]
        simp [hb]

/-! ### Fold invariants of the validation and epoch loops -/

lemma tallyBatch_eq (ps : List (Nat × Nat)) (mc : Nat × Nat) :
    tallyBatch ps mc
      = (mc.1 + ps.countP (fun p => p.1 == p.2), mc.2 + ps.length) := by
  induction ps generalizing mc with
  | nil => simp [tallyBatch]
  | cons p ps ih =>
      by_cases hp : p.1 = p.2 <;>
        simp [tallyBatch, hp, ih, List.countP_cons, Prod.ext_iff] <;> omega

lemma valPhase_inv (batches : List ValBatch) (s : ValStats) :
    (batches.foldl valStep s).iteration = s.iteration + batches.length ∧
    (batches.foldl valStep s).total_loss
      = s.total_loss + (batches.map ValBatch.loss).sum ∧
    (batches.foldl valStep s).total_match
      = s.total_match
        + (batches.map (fun b => b.preds.countP (fun p => p.1 == p.2))).sum ∧
    (batches.foldl valStep s).total_counter
      = s.total_counter + (batches.map (fun b => b.preds.length)).sum := by
  induction batches generalizing s with
  | nil => simp
  | cons b bs ih =>
      obtain ⟨i1, i2, i3, i4⟩ := ih (valStep s b)
      simp only [List.foldl_cons, List.map_cons, List.sum_cons, i1, i2, i3, i4]
      refine ⟨by simp [valStep]; omega, by simp [valStep]; ring,
        ?_, ?_⟩ <;> simp [valStep, tallyBatch_eq] <;> omega

lemma trainingLoop_inv (v : Bool) (tb : Nat) (es : List Nat) (s : LoopState) :
    (es.foldl (runEpoch v tb) s).optSteps = s.optSteps + es.length * tb ∧
    (es.foldl (runEpoch v tb) s).validations
      = s.validations
        ++ (es.filter (fun e => v && e % 5 == 0)).map
            (fun e => ValidationRecord.mk e true) := by
  induction es generalizing s with
  | nil => simp
  | cons e es ih =>
      obtain ⟨i1, i2⟩ := ih (runEpoch v tb s e)
      have hr : (runEpoch v tb s e).optSteps = s.optSteps + tb := by
        by_cases he : (v && e % 5 == 0) = true <;> simp [runEpoch, he]
      have hv : (runEpoch v tb s e).validations
          = s.validations
            ++ (if v && e % 5 == 0 then [ValidationRecord.mk e true] else []) := by
        by_cases he : (v && e % 5 == 0) = true <;> simp [runEpoch, he]
      refine ⟨?_, ?_⟩
      · simp only [List.foldl_cons, i1, hr, List.length_cons]
        ring
      · simp only [List.foldl_cons, i2, hv, List.filter_cons]
        by_cases he : (v && e % 5 == 0) = true <;> simp [he]

lemma buildDenseBlocks_trans_halves (g : Nat) :
    ∀ (ncs : List Nat) (ch ic oc : Nat),
      Block.trans ic oc ∈ (buildDenseBlocks g ncs ch).1 → oc = ic / 2 := by
  intro ncs
  induction ncs with
  | nil => intro ch ic oc h; simp [buildDenseBlocks] at h
  | cons nc rest ih =>
      cases rest with
      | nil =>
          intro ch ic oc h
          simp [buildDenseBlocks] at h
      | cons nc2 rest2 =>
          intro ch ic oc h
          simp only [buildDenseBlocks, List.mem_cons] at h
          rcases h with h | h | h
          · exact absurd h (by simp)
          · obtain ⟨h1, h2⟩ := Block.trans.inj h.symm
            omega
          · exact ih _ _ _ h

/-! ### The claims -/

/-- C1: for every batch size `N` and every `num_classes`, applying
`DensNetImpl::forward` to an input of shape `[N, 3, 224, 224]` yields an
output of shape `[N, num_classes]` (the raw classifier output — the
forward pass ends with the linear layer and applies no normalization). -/
theorem claim_C1 (N num_classes : Nat) :
    densNet_forward num_classes ⟨N, 3, 224, 224⟩ = some (N, num_classes) := by
  simp [densNet_forward, densNet_features_shape, adaptive_avg_pool2d_shape,
    relu_shape, view_flatten, linear_shape, densNetFinalChannels_eq]

/-- C2: `conv_block` applies batch normalization, then ReLU, then a 3x3
convolution with padding 1 producing `Cout` channels, and returns the
channel concatenation of the original input with the convolution output,
so an input of shape `[N, Cin, H, W]` yields `[N, Cin + Cout, H, W]`. -/
theorem claim_C2 (N Cin Cout H W : Nat) (hH : 1 ≤ H) (hW : 1 ≤ W) :
    conv_block_layers Cin Cout
      = [.batchNorm2d Cin, .relu, .conv2d Cin Cout 3 1 1] ∧
    conv_block_forward Cin Cout ⟨N, Cin, H, W⟩ = some ⟨N, Cin + Cout, H, W⟩ :=
  ⟨rfl, conv_block_shape Cin Cout N H W hH hW⟩

theorem claim_C2_witness :
    (1:Nat) ≤ 5 ∧ (1:Nat) ≤ 6 ∧
    conv_block_forward 3 2 ⟨4, 3, 5, 6⟩ = some ⟨4, 3 + 2, 5, 6⟩ :=
  ⟨by decide, by decide, (claim_C2 4 3 2 5 6 (by decide) (by decide)).2⟩

/-- C3: `DenseBlock(num_convs, input_channels, growth)` constructs
`num_convs` conv blocks, block `i` receiving `input_channels + i * growth`
input channels and emitting `growth` new channels; its forward is the
iterated composition, and the output channel count is
`input_channels + num_convs * growth`. -/
theorem claim_C3 (num_convs ic g N H W : Nat) (hH : 1 ≤ H) (hW : 1 ≤ W) :
    (denseBlockConvs num_convs ic g).length = num_convs ∧
    (∀ i, i < num_convs →
      (denseBlockConvs num_convs ic g).getD i (0, 0) = (ic + i * g, g)) ∧
    denseBlock_forward num_convs ic g ⟨N, ic, H, W⟩
      = some ⟨N, ic + num_convs * g, H, W⟩ := by
  refine ⟨by simp [denseBlockConvs], ?_, denseBlock_shape num_convs ic g N H W hH hW⟩
  intro i hi
  have : (denseBlockConvs num_convs ic g)[i]? = some (g * i + ic, g) := by
    simp [denseBlockConvs, List.getElem?_range, hi]
  simp [List.getD_eq_getElem?_getD, this]
  ring

theorem claim_C3_witness :
    (1:Nat) ≤ 7 ∧ (1:Nat) ≤ 9 ∧
    denseBlock_forward 4 64 32 ⟨2, 64, 7, 9⟩ = some ⟨2, 64 + 4 * 32, 7, 9⟩ :=
  ⟨by decide, by decide, (claim_C3 4 64 32 2 7 9 (by decide) (by decide)).2.2⟩
/-- C4 (as stated) is false: with `class_num = 1` and a readable file of
two qualifying lines, `class_names.at(i)` is evaluated at `i = 1` on a
vector of size 1, so the process dies from an uncaught
`std::out_of_range` (abort), not from the fatal error message with exit
code 1 that the claim asserts for every count mismatch. -/
theorem claim_C4_counterexample :
    Set_Class_Names (some ["aaa", "bbb"]) 1 = ProcResult.abort ∧
    ProcResult.abort ≠ ProcResult.exitFatal (α := List String) 1 := by
  constructor
  · rfl
  · intro h; cases h

/-- C4 (amended): with a readable file holding exactly `class_num` lines
of length greater than 2, `Set_Class_Names` returns exactly those lines
in file order; with an unreadable file, or with fewer such lines than
`class_num`, the process prints a fatal message and exits with code 1;
with more such lines than `class_num`, it terminates by an uncaught
`std::out_of_range` exception (abort), not by exit code 1. -/
theorem claim_C4 (lines : List String) (class_num : Nat) :
    (Set_Class_Names none class_num = ProcResult.exitFatal 1) ∧
    ((lines.filter (fun l => 2 < l.length)).length = class_num →
      Set_Class_Names (some lines) class_num
        = ProcResult.ok (lines.filter (fun l => 2 < l.length))) ∧
    ((lines.filter (fun l => 2 < l.length)).length < class_num →
      Set_Class_Names (some lines) class_num = ProcResult.exitFatal 1) ∧
    (class_num < (lines.filter (fun l => 2 < l.length)).length →
      Set_Class_Names (some lines) class_num = ProcResult.abort) := by
  refine ⟨rfl, ?_, ?_, ?_⟩ <;> intro h
  · simp [Set_Class_Names, h]
  · have h1 : ¬ class_num < (lines.filter (fun l => 2 < l.length)).length := by
      omega
    have h2 : ¬ (lines.filter (fun l => 2 < l.length)).length = class_num := by
      omega
    simp [Set_Class_Names, h1, h2]
  · simp [Set_Class_Names, h]

theorem claim_C4_witness :
    ((["aaa", "bb", "bbbb"].filter (fun l => 2 < l.length)).length = 2 ∧
      Set_Class_Names (some ["aaa", "bb", "bbbb"]) 2
        = ProcResult.ok ["aaa", "bbbb"]) ∧
    ((["aaa"].filter (fun l => 2 < l.length)).length < 2 ∧
      Set_Class_Names (some ["aaa"]) 2 = ProcResult.exitFatal 1) := by
  constructor
  · refine ⟨by decide, ?_⟩
    have h := (claim_C4 ["aaa", "bb", "bbbb"] 2).2.1 (by decide)
    have e : ["aaa", "bb", "bbbb"].filter (fun l => 2 < l.length)
        = ["aaa", "bbbb"] := by decide
    rw [e] at h
    exact h
  · exact ⟨by decide, (claim_C4 ["aaa"] 2).2.2.1 (by decide)⟩

/-- C5: during construction, each dense block raises the channel counter
by `num_convs * growth`; after every dense block except the last, a
transition block maps the counter to the integer truncation of
`num_channels / 2` (so one channel is lost when the count is odd); with
the default configuration the counter entering the final batch norm and
the classifier is 248. -/
theorem claim_C5 :
    densNetFinalChannels = 248 ∧
    (∀ g ch nc nc2 rest,
      (buildDenseBlocks g (nc :: nc2 :: rest) ch).1.take 2
        = [Block.dense nc ch g,
           Block.trans (ch + nc * g) ((ch + nc * g) / 2)]) ∧
    (∀ g nc ch, buildDenseBlocks g [nc] ch
        = ([Block.dense nc ch g], ch + nc * g)) ∧
    (∀ g ncs ch ic oc,
      Block.trans ic oc ∈ (buildDenseBlocks g ncs ch).1 → oc = ic / 2) ∧
    (∀ g ncs ch ic oc,
      Block.trans ic oc ∈ (buildDenseBlocks g ncs ch).1 → ic % 2 = 1 →
        ic = 2 * oc + 1) := by
  refine ⟨rfl, fun g ch nc nc2 rest => by simp [buildDenseBlocks],
    fun g nc ch => rfl, buildDenseBlocks_trans_halves, ?_⟩
  intro g ncs ch ic oc h hodd
  have := buildDenseBlocks_trans_halves g ncs ch ic oc h
  omega

theorem claim_C5_witness :
    Block.trans 192 96 ∈ (buildDenseBlocks 32 [4, 4, 4, 4] 64).1 ∧
    (96:Nat) = 192 / 2 ∧
    Block.trans 225 112 ∈ (buildDenseBlocks 32 [4, 4, 4, 4] 97).1 ∧
    (225:Nat) % 2 = 1 ∧ (225:Nat) = 2 * 112 + 1 :=
  ⟨by decide, claim_C5.2.2.2.1 32 [4, 4, 4, 4] 64 192 96 (by decide),
   by decide, by decide,
   claim_C5.2.2.2.2 32 [4, 4, 4, 4] 97 225 112 (by decide) (by decide)⟩

/-- C6: `transition_block` applies batch normalization, activation, a 1x1
convolution mapping `input_channels` to `num_channels`, then 2x2 average
pooling with stride 2; it performs no concatenation, the output channel
count is exactly `num_channels`, and both spatial dimensions become the
floor of the input dimension divided by 2. -/
theorem claim_C6 (ic oc N H W : Nat) (hH : 2 ≤ H) (hW : 2 ≤ W) :
    transition_block_layers ic oc
      = [.batchNorm2d ic, .relu, .conv2d ic oc 1 1 0, .avgPool2d 2 2] ∧
    transition_block_forward ic oc ⟨N, ic, H, W⟩
      = some ⟨N, oc, H / 2, W / 2⟩ :=
  ⟨rfl, transition_block_shape ic oc N H W hH hW⟩

theorem claim_C6_witness :
    (2:Nat) ≤ 15 ∧ (2:Nat) ≤ 8 ∧
    transition_block_forward 192 96 ⟨3, 192, 15, 8⟩ = some ⟨3, 96, 7, 4⟩ :=
  ⟨by decide, by decide, by
    have h := (claim_C6 192 96 3 15 8 (by decide) (by decide)).2
    simpa using h⟩
lemma replicate_getD (n c : Nat) : (List.replicate n (0:Nat)).getD c 0 = 0 := by
  simp [List.getD_eq_getElem?_getD, List.getElem?_replicate]
  split <;> simp

/-- C7: in the test phase, `class_counter[c]` counts the test samples with
label `c`, `class_match[c]` counts those among them whose top-1 prediction
is `c`, the reported per-class accuracy is the unguarded float division
`class_match[c] / class_counter[c]`, and for a class with zero test
samples that division is `0.0f / 0.0f`, i.e. NaN. -/
theorem claim_C7 (class_num : Nat) (samples : List TestSample) (c : Nat)
    (hc : c < class_num) (hl : ∀ x ∈ samples, x.answer < class_num) :
    (testPhase class_num samples).class_counter.getD c 0
      = samples.countP (fun x => x.answer == c) ∧
    (testPhase class_num samples).class_match.getD c 0
      = samples.countP (fun x => x.response == c && x.answer == c) ∧
    test_class_accuracy class_num samples c
      = fdivNat ((testPhase class_num samples).class_match.getD c 0)
          ((testPhase class_num samples).class_counter.getD c 0) ∧
    (samples.countP (fun x => x.answer == c) = 0 →
      test_class_accuracy class_num samples c = FVal.nan) := by
  have hl1 : ∀ x ∈ samples,
      x.answer < (List.replicate class_num (0:Nat)).length := by
    simpa using hl
  have hcc := testPhase_class_counter samples
    ⟨0, 0, 0, List.replicate class_num 0, List.replicate class_num 0⟩ c hl1
  have hcm := testPhase_class_match samples
    ⟨0, 0, 0, List.replicate class_num 0, List.replicate class_num 0⟩ c hl1
  rw [replicate_getD, Nat.zero_add] at hcc hcm
  have hpred : ∀ x : TestSample,
      (x.response == x.answer && x.answer == c)
        = (x.response == c && x.answer == c) := by
    intro x
    by_cases h1 : x.answer = c
    · subst h1; simp
    · have : (x.answer == c) = false := by simp [h1]
      simp [this]
  have hcm2 : (testPhase class_num samples).class_match.getD c 0
      = samples.countP (fun x => x.response == c && x.answer == c) := by
    simp only [testPhase]
    rw [hcm]
    exact List.countP_congr (fun x _ => by rw [hpred x])
  refine ⟨hcc, hcm2, rfl, ?_⟩
  intro h0
  have hle : samples.countP (fun x => x.response == c && x.answer == c)
      ≤ samples.countP (fun x => x.answer == c) :=
    List.countP_mono_left (fun x _ hx => by
      simp only [Bool.and_eq_true] at hx
      exact hx.2)
  have hm0 : (testPhase class_num samples).class_match.getD c 0 = 0 := by
    rw [hcm2]; omega
  have hc0 : (testPhase class_num samples).class_counter.getD c 0 = 0 := by
    simp only [testPhase]
    omega
  simp only [test_class_accuracy]
  rw [hm0, hc0]
  simp [fdivNat]

theorem claim_C7_witness :
    (0:Nat) < 3 ∧
    (∀ x ∈ ([⟨1, 2, 2⟩, ⟨1, 0, 1⟩] : List TestSample), x.answer < 3) ∧
    test_class_accuracy 3 [⟨1, 2, 2⟩, ⟨1, 0, 1⟩] 0 = FVal.nan := by
  refine ⟨by decide, by decide, ?_⟩
  exact (claim_C7 3 [⟨1, 2, 2⟩, ⟨1, 0, 1⟩] 0 (by decide) (by decide)).2.2.2
    (by decide)

/-- C8: validation runs exactly in the epochs divisible by 5 and in no
others; each validation pass runs with `net->eval()` in effect, performs
the same forward/loss computation with no optimizer step (the optimizer
step count is `total_epoch * train_batches` from the training phase
alone), and tallies per-sample top-1 matches against the labels to
compute the reported accuracy. -/
theorem claim_C8 (train_batches total_epoch : Nat) :
    (trainingLoop true train_batches total_epoch).validations
      = ((List.range' 1 total_epoch).filter (fun e => e % 5 == 0)).map
          (fun e => ValidationRecord.mk e true) ∧
    (∀ r ∈ (trainingLoop true train_batches total_epoch).validations,
        r.evalMode = true ∧ r.epoch % 5 = 0) ∧
    (trainingLoop true train_batches total_epoch).optSteps
      = total_epoch * train_batches ∧
    (∀ batches : List ValBatch,
      (valPhase batches).total_match
        = (batches.map (fun b => b.preds.countP (fun p => p.1 == p.2))).sum ∧
      (valPhase batches).total_counter
        = (batches.map (fun b => b.preds.length)).sum ∧
      validation_accuracy batches
        = fdivNat (valPhase batches).total_match
            (valPhase batches).total_counter) := by
  obtain ⟨h1, h2⟩ :=
    trainingLoop_inv true train_batches (List.range' 1 total_epoch) ⟨0, []⟩
  refine ⟨?_, ?_, ?_, ?_⟩
  · rw [trainingLoop, h2]; simp
  · intro r hr
    rw [trainingLoop, h2] at hr
    simp only [List.nil_append, List.mem_map, List.mem_filter] at hr
    obtain ⟨e, ⟨_, he⟩, rfl⟩ := hr
    simpa using he
  · rw [trainingLoop, h1]; simp [Nat.mul_comm]
  · intro batches
    obtain ⟨_, _, h3, h4⟩ := valPhase_inv batches ⟨0, 0, 0, 0⟩
    exact ⟨by rw [valPhase, h3]; simp, by rw [valPhase, h4]; simp, rfl⟩

theorem claim_C8_witness :
    ValidationRecord.mk 5 true ∈ (trainingLoop true 2 20).validations ∧
    (ValidationRecord.mk 5 true).evalMode = true ∧
    (ValidationRecord.mk 5 true).epoch % 5 = 0 :=
  ⟨by decide, (claim_C8 2 20).2.1 (ValidationRecord.mk 5 true) (by decide)⟩

/-- C9: the post-construction pass over every submodule of the model sets
convolution weights by Kaiming-normal initialization, batch-norm weights
to 1 and biases to 0, and the linear bias to 0 leaving the linear weight
at the framework default; every other submodule keeps all parameters at
the framework default. -/
theorem claim_C9 (p : ModKind × ParamInit) (hp : p ∈ densNetInit) :
    (p.1 = ModKind.conv2d →
      p.2 = ⟨Init.kaimingNormal, Init.frameworkDefault⟩) ∧
    (p.1 = ModKind.batchNorm2d →
      p.2 = ⟨Init.constInit 1, Init.constInit 0⟩) ∧
    (p.1 = ModKind.linear →
      p.2 = ⟨Init.frameworkDefault, Init.constInit 0⟩) ∧
    (p.1 = ModKind.other →
      p.2 = ⟨Init.frameworkDefault, Init.frameworkDefault⟩) := by
  obtain ⟨k, _, rfl⟩ := List.mem_map.mp hp
  cases k <;> simp [initModule]

theorem claim_C9_witness :
    (ModKind.linear, ParamInit.mk Init.frameworkDefault (Init.constInit 0))
        ∈ densNetInit ∧
    ((ModKind.linear, ParamInit.mk Init.frameworkDefault (Init.constInit 0)).1
        = ModKind.linear →
      (ModKind.linear,
        ParamInit.mk Init.frameworkDefault (Init.constInit 0)).2
        = ⟨Init.frameworkDefault, Init.constInit 0⟩) :=
  ⟨by decide,
   (claim_C9 (ModKind.linear,
      ParamInit.mk Init.frameworkDefault (Init.constInit 0)) (by decide)).2.2.1⟩

/-- C10: the average test loss printed after the test phase is the
accumulated per-sample loss sum divided by the size of the TRAINING
dataset (`dataset.size()`), not by the number of test samples the loop
iterated (`counter`, which equals the test sample count); a concrete
instance where the two divisors differ shows the values differ. -/
theorem claim_C10 (class_num train_dataset_size : Nat)
    (samples : List TestSample) :
    test_reported_ave_loss class_num train_dataset_size samples
      = fdivQ ((samples.map TestSample.loss).sum) train_dataset_size ∧
    (testPhase class_num samples).counter = samples.length ∧
    (test_reported_ave_loss 2 10 [⟨2, 0, 0⟩] = FVal.val (1 / 5) ∧
      fdivQ ((([⟨2, 0, 0⟩] : List TestSample).map TestSample.loss).sum)
          (testPhase 2 [⟨2, 0, 0⟩]).counter = FVal.val 2 ∧
      (1 / 5 : ℚ) ≠ 2) := by
  refine ⟨?_, ?_, ?_, ?_, ?_⟩
  · rw [test_reported_ave_loss, testPhase, testPhase_ave_loss]
    norm_num
  · rw [testPhase, testPhase_counter]; simp
  · rw [test_reported_ave_loss, testPhase]
    norm_num [testStep, fdivQ]
  · rw [testPhase]
    norm_num [testStep, fdivQ, testPhase_counter]
  · norm_num

end DensNet
